import Mathlib

/-!
Shallow embedding of `src/chatbot.py` (a document-grounded chat assistant:
folder indexing into a remote vector store, assistant provisioning with a
JSON config file, a run-polling chat loop, and a sidebar file manager).
Remote provider calls are modelled by an oracle (`Provider`) and every
function returns, next to its value, the list of remote calls it issued
(`Event` trace), so that claims about which calls happen can be stated
and proved.
-/

namespace CompanyDocs

/-- Index of the last occurrence of character `c` in a list, as in Python's
`str.rfind` (restricted to the found case: `none` means not found, Python's
`-1`). -/
def lastIdxOf (c : Char) : List Char → Option Nat
  | [] => none
  | x :: xs =>
    match lastIdxOf c xs with
    | some i => some (i + 1)
    | none => if x = c then some 0 else none

/-- Python `pathlib.PurePath.suffix` of a final path component `name`:
`name[i:]` for `i = name.rfind('.')` when `0 < i < len(name) - 1`, else `""`.
So `"a.PDF" ↦ ".PDF"`, `"archive.tar.gz" ↦ ".gz"`, `".bashrc" ↦ ""`,
`"noext" ↦ ""`, `"a." ↦ ""`. -/
def pySuffix (name : String) : String :=
  let cs := name.data
  match lastIdxOf '.' cs with
  | none => ""
  | some i => if 0 < i ∧ i + 1 < cs.length then String.mk (cs.drop i) else ""

/-- Python `str.lower` (ASCII case, enough for the extension sets). -/
def lowerStr (s : String) : String := String.mk (s.data.map Char.toLower)

/-- `SUPPORTED_EXTENSIONS` of `src/chatbot.py` (the indexing allow-list). -/
def SUPPORTED_EXTENSIONS : List String :=
  [".c", ".cpp", ".css", ".csv", ".doc", ".docx", ".gif", ".go", ".html", ".java",
   ".jpeg", ".jpg", ".js", ".json", ".md", ".pdf", ".php", ".pkl", ".png", ".pptx",
   ".py", ".rb", ".tar", ".tex", ".ts", ".txt", ".webp", ".xlsx", ".xml", ".zip"]

/-- `ALLOWED_EXTENSIONS` of `src/chatbot.py` (the interactive-upload allow-list). -/
def ALLOWED_EXTENSIONS : List String :=
  [".pdf", ".txt", ".md", ".docx", ".csv", ".xlsx"]

/-- A directory entry returned by `Path(folder_path).glob("*")`: a name and
whether the entry is a directory. `glob("*")` yields every entry directly
under the folder, directories included; the source never tests `is_file`. -/
structure Entry where
  name : String
  isDir : Bool
deriving DecidableEq, Repr

/-- `file_path.suffix.lower() in SUPPORTED_EXTENSIONS` (line 42 of the source). -/
def isSupported (name : String) : Bool :=
  SUPPORTED_EXTENSIONS.contains (lowerStr (pySuffix name))

/-- The persisted config record: JSON object with the two optional keys
`vector_store_id` and `assistant_id`. -/
structure Config where
  vector_store_id : Option String
  assistant_id : Option String
deriving DecidableEq, Repr

/-- Python falsiness of `config.get(key)`: `None` (key absent) and `""` are
falsy, any other string is truthy. -/
def falsyOpt : Option String → Bool
  | none => true
  | some s => s == ""

/-- Errors of the config store, per the spec's taxonomy. -/
inductive ConfigError where
  | ConfigCorrupt
deriving DecidableEq, Repr

/-- `load_config` (line 32-33): empty record if the file does not exist,
otherwise `json.loads` of its text, which raises exactly on malformed JSON.
The file system is `Option String` (file content when it exists) and the
JSON reader is a parameter `parseJson` (`none` = malformed). -/
def load_config (parseJson : String → Option Config) (file : Option String) :
    Except ConfigError Config :=
  match file with
  | none => .ok ⟨none, none⟩
  | some s =>
    match parseJson s with
    | some cfg => .ok cfg
    | none => .error ConfigError.ConfigCorrupt

/-- One remote call (or observable local effect) issued by the script. -/
inductive Event where
  | uploadFile (name : String)
  | skipLog (name : String)
  | createVectorStore (fileIds : List String)
  | saveConfig (cfg : Config)
  | createAssistant (vsId : String)
  | retrieveAssistant (assistantId : String)
  | retrieveRun (k : Nat)
  | sleep (seconds : Nat)
  | batchUpload (files : List (String × List Nat))
deriving DecidableEq, Repr

/-- The remote provider oracle: what each call would return. `uploadResult`
covers `open(file_path, "rb")` plus `openai.files.create` for one entry
(`.error` = the exception that aborts the pass, e.g. opening a directory). -/
structure Provider where
  uploadResult : Entry → Except String String
  createVS : List String → String
  newAssistantId : String

/-- The trace event the per-entry branch of the indexing loop emits:
an upload call for a supported suffix, a skip log line otherwise. -/
def stepEv (e : Entry) : Event :=
  if isSupported e.name then Event.uploadFile e.name else Event.skipLog e.name

/-- The `for file_path in Path(folder_path).glob("*")` loop of
`upload_files_and_create_vector_store` (lines 41-47): supported entries are
uploaded and their ids collected, unsupported ones are skipped with a log
line; a failing upload raises, ending the pass with the trace so far. -/
def uploadFiles (p : Provider) : List Entry → Except (List Event × String) (List Event × List String)
  | [] => .ok ([], [])
  | e :: rest =>
    if isSupported e.name then
      match p.uploadResult e with
      | .error msg => .error ([Event.uploadFile e.name], msg)
      | .ok fid =>
        match uploadFiles p rest with
        | .error (tr, msg) => .error (Event.uploadFile e.name :: tr, msg)
        | .ok (tr, ids) => .ok (Event.uploadFile e.name :: tr, fid :: ids)
    else
      match uploadFiles p rest with
      | .error (tr, msg) => .error (Event.skipLog e.name :: tr, msg)
      | .ok (tr, ids) => .ok (Event.skipLog e.name :: tr, ids)

/-- `upload_files_and_create_vector_store` (lines 39-49): run the loop, then
unconditionally create the vector store from the collected ids and return
its id (with the full call trace). -/
def upload_files_and_create_vector_store (p : Provider) (entries : List Entry) :
    Except (List Event × String) (List Event × String) :=
  match uploadFiles p entries with
  | .error e => .error e
  | .ok (tr, ids) =>
    .ok (tr ++ [Event.createVectorStore ids], p.createVS ids)

/-- The vector-store half of `initialize_assistant_and_vector_store`
(lines 56-61): index the folder and persist the new id exactly when
`config.get("vector_store_id")` is falsy. -/
def initVectorStore (p : Provider) (entries : List Entry) (cfg : Config) :
    Except (List Event × String) (List Event × String × Config) :=
  if falsyOpt cfg.vector_store_id then
    match upload_files_and_create_vector_store p entries with
    | .error e => .error e
    | .ok (tr, vsId) =>
      let cfg' := { cfg with vector_store_id := some vsId }
      .ok (tr ++ [Event.saveConfig cfg'], vsId, cfg')
  else
    .ok ([], cfg.vector_store_id.getD "", cfg)

/-- The assistant half of `initialize_assistant_and_vector_store`
(lines 64-75): create (wired to `vsId`) and persist when
`config.get("assistant_id")` is falsy, otherwise retrieve the stored id. -/
def initAssistant (p : Provider) (vsId : String) (cfg : Config) :
    List Event × String × Config :=
  if falsyOpt cfg.assistant_id then
    let aid := p.newAssistantId
    let cfg' := { cfg with assistant_id := some aid }
    ([Event.createAssistant vsId, Event.saveConfig cfg'], aid, cfg')
  else
    let aid := cfg.assistant_id.getD ""
    ([Event.retrieveAssistant aid], aid, cfg)

/-- `initialize_assistant_and_vector_store` (lines 51-77): returns
(trace, assistant id, vector store id, final config), or the error that
aborted provisioning together with the calls made before it. -/
def initialize_assistant_and_vector_store (p : Provider) (entries : List Entry) (cfg : Config) :
    Except (List Event × String) (List Event × String × String × Config) :=
  match initVectorStore p entries cfg with
  | .error e => .error e
  | .ok (tr₁, vsId, cfg₁) =>
    let res := initAssistant p vsId cfg₁
    .ok (tr₁ ++ res.1, res.2.1, vsId, res.2.2)

/-- Whether an event is a remote creation call (`openai.files.create`,
`openai.vector_stores.create`, `openai.beta.assistants.create`). -/
def isCreateCall : Event → Bool
  | .uploadFile _ => true
  | .createVectorStore _ => true
  | .createAssistant _ => true
  | _ => false

/-- Number of creation calls in a trace. -/
def createCalls (tr : List Event) : Nat := (tr.filter isCreateCall).length

/-- Whether an event is the `openai.beta.assistants.retrieve` call. -/
def isRetrieveAssistant : Event → Bool
  | .retrieveAssistant _ => true
  | _ => false

/-- Number of assistant-retrieve calls in a trace. -/
def retrieveCalls (tr : List Event) : Nat := (tr.filter isRetrieveAssistant).length

/-- The trace of a pass, successful or aborted. -/
def traceOf : Except (List Event × String) (List Event × List String) → List Event
  | .ok (tr, _) => tr
  | .error (tr, _) => tr

/-- `openai.files.create` result, forgetting the error. -/
def okValue : Except String String → Option String
  | .ok v => some v
  | .error _ => none

/-- The `while True` run-polling loop (lines 119-126), fuelled so it is a
total Lean function: `status k` is what the k-th
`openai.beta.threads.runs.retrieve` call reports; a `"completed"` status
breaks out of the loop, anything else is followed by `time.sleep(1)` and
another poll. `none` means the fuel ran out with the loop still running. -/
def pollLoop (status : Nat → String) : Nat → Nat → Option (List Event × Nat)
  | 0, _ => none
  | fuel + 1, k =>
    if status k = "completed" then some ([Event.retrieveRun k], k)
    else
      match pollLoop status fuel (k + 1) with
      | none => none
      | some (tr, n) => some (Event.retrieveRun k :: Event.sleep 1 :: tr, n)

/-- The call trace of a poll loop that starts at poll `k` and sees
`"completed"` on its (m+1)-th poll: a retrieve per poll, a 1-second sleep
after every poll that was not `"completed"`. -/
def pollTraceFrom : Nat → Nat → List Event
  | k, 0 => [Event.retrieveRun k]
  | k, m + 1 => Event.retrieveRun k :: Event.sleep 1 :: pollTraceFrom (k + 1) m

/-- One chat turn of `st.session_state.chat_history`. -/
structure Turn where
  role : String
  content : String
deriving DecidableEq, Repr

/-- A message of `openai.beta.threads.messages.list(...).data`: its role and
its content items (each item's `.text.value`). -/
structure RemoteMessage where
  role : String
  content : List String
deriving DecidableEq, Repr

/-- `messages.data[0].content[0].text.value` (line 129): the first content
item of the first listed message, `none` when either index raises
`IndexError`. The message's role is never consulted. -/
def extractResponse : List RemoteMessage → Option String
  | [] => none
  | m :: _ =>
    match m.content with
    | [] => none
    | c :: _ => some c

/-- The chat-history effect of one submitted input whose run completed with
response text `r` (lines 105 and 131): append the user turn, then the
assistant turn. -/
def sessionStep (hist : List Turn) (u r : String) : List Turn :=
  hist ++ [⟨"user", u⟩] ++ [⟨"assistant", r⟩]

/-- The whole `if user_input:` handler (lines 104-131) restricted to its
chat-history effect: the user turn is appended first; then, after the run
completes, the response is read off the message listing `msgs` and appended
as the assistant turn — unless extraction raises (`some err` in the second
component), in which case the history keeps only the user turn. -/
def handleInput (hist : List Turn) (u : String) (msgs : List RemoteMessage) :
    List Turn × Option String :=
  let h₁ := hist ++ [⟨"user", u⟩]
  match extractResponse msgs with
  | none => (h₁, some "IndexError")
  | some r => (h₁ ++ [⟨"assistant", r⟩], none)

/-- A session: the chat history after the listed (input, response) turns,
each of which completed its run, starting from the empty history of a fresh
thread (line 95). -/
def runSession (pairs : List (String × String)) : List Turn :=
  pairs.foldl (fun h q => sessionStep h q.1 q.2) []

/-- The expected interleaving: user turn, its assistant turn, in
submission order. -/
def interleaved : List (String × String) → List Turn
  | [] => []
  | (u, r) :: rest => ⟨"user", u⟩ :: ⟨"assistant", r⟩ :: interleaved rest

/-- A file selected in `st.file_uploader`: its `.name` and the bytes
`f.read()` returns. -/
structure UploadedFile where
  name : String
  data : List Nat
deriving DecidableEq, Repr

/-- An element of `openai.vector_stores.files.list(...).data`. -/
structure VSFile where
  id : String
deriving DecidableEq, Repr

/-- `existing_filenames` (lines 147-150): the filename
`openai.files.retrieve(f.id).filename` of every listed vector-store file
(`retrieveFilename` is the retrieve oracle). -/
def existing_filenames (retrieveFilename : String → String) (files : List VSFile) :
    List String :=
  files.map (fun f => retrieveFilename f.id)

/-- `new_files` (lines 170-174): the selected files whose `.name` is not
among the existing filenames, keeping `(f.name, f.read())` pairs. -/
def new_files (uploaded : List UploadedFile) (existing : List String) :
    List UploadedFile :=
  uploaded.filter (fun f => !existing.contains f.name)

/-- The `if uploaded_files:` sidebar branch (lines 169-184) restricted to
its remote calls: one `file_batches.upload_and_poll` with exactly the new
files when there are any, no remote call otherwise. -/
def uploadHandler (uploaded : List UploadedFile) (existing : List String) :
    List Event :=
  if uploaded.isEmpty then []
  else
    let nf := new_files uploaded existing
    if nf.isEmpty then []
    else [Event.batchUpload (nf.map (fun f => (f.name, f.data)))]

/-- The files carried by the batch-upload calls of a trace. -/
def batchFiles (tr : List Event) : List (String × List Nat) :=
  tr.foldr (fun e acc => match e with | Event.batchUpload fs => fs ++ acc | _ => acc) []

/-- A concrete provider for evaluating the theorems: every upload succeeds
except the file named `fail.pdf`, whose upload raises. -/
def p₀ : Provider where
  uploadResult e := if e.name = "fail.pdf" then .error "boom" else .ok ("id-" ++ e.name)
  createVS ids := "vs-" ++ toString ids.length
  newAssistantId := "asst-new"

/-- A concrete populated config. -/
def cfg₀ : Config := ⟨some "vs-1", some "asst-1"⟩

/-- A concrete JSON reader that accepts only the literal text `{}`. -/
def parse₀ : String → Option Config :=
  fun s => if s = "\x7b\x7d" then some ⟨none, none⟩ else none

/-- A concrete run-status stream: in progress for two polls, then completed. -/
def status₀ : Nat → String :=
  fun j => if j < 2 then "in_progress" else "completed"

/-- A concrete run-status stream that never completes. -/
def statusStuck : Nat → String := fun _ => "queued"

/-! ## Theorems -/

/-- The per-entry branch emits an upload event or a skip-log event, nothing
else. -/
theorem stepEv_shape (e : Entry) :
    (∃ n, stepEv e = Event.uploadFile n) ∨ (∃ n, stepEv e = Event.skipLog n) := by
  unfold stepEv
  by_cases hs : isSupported e.name <;> simp [hs]

/-- When every supported entry's upload succeeds, the indexing loop runs to
the end: its trace is the per-entry branch events in folder order, and the
collected ids are the returned handles of the supported entries in order. -/
theorem uploadFiles_ok (p : Provider) (entries : List Entry)
    (hok : ∀ e ∈ entries, isSupported e.name = true → (p.uploadResult e).isOk = true) :
    uploadFiles p entries =
      .ok (entries.map stepEv,
        entries.filterMap
          (fun e => if isSupported e.name then okValue (p.uploadResult e) else none)) := by
  induction entries with
  | nil => rfl
  | cons e rest ih =>
    have hok' : ∀ e' ∈ rest, isSupported e'.name = true → (p.uploadResult e').isOk = true :=
      fun e' he' => hok e' (List.mem_cons_of_mem _ he')
    by_cases hs : isSupported e.name
    · have hOk : (p.uploadResult e).isOk = true := hok e (List.mem_cons_self _ _) hs
      cases hres : p.uploadResult e with
      | error msg => rw [hres] at hOk; simp [Except.isOk, Except.toBool] at hOk
      | ok fid => simp [uploadFiles, hs, hres, ih hok', stepEv, okValue]
    · simp [uploadFiles, hs, ih hok', stepEv]

/-- When no entry is supported, the loop uploads nothing, logs a skip per
entry and collects no handle. -/
theorem uploadFiles_none_supported (p : Provider) (entries : List Entry)
    (h : ∀ e ∈ entries, isSupported e.name = false) :
    uploadFiles p entries = .ok (entries.map (fun e => Event.skipLog e.name), []) := by
  induction entries with
  | nil => rfl
  | cons e rest ih =>
    have he := h e (List.mem_cons_self _ _)
    simp [uploadFiles, he, ih (fun e' h' => h e' (List.mem_cons_of_mem _ h'))]

/-- C5: `load_config` returns the empty record when the config file does not
exist, and otherwise parses the file as JSON, failing with `ConfigCorrupt`
exactly when the content is malformed (the reader returns `none`). -/
theorem load_config_spec (parseJson : String → Option Config) (s : String) :
    load_config parseJson none = .ok ⟨none, none⟩ ∧
    (load_config parseJson (some s) = .error ConfigError.ConfigCorrupt ↔
      parseJson s = none) ∧
    (∀ cfg, parseJson s = some cfg → load_config parseJson (some s) = .ok cfg) := by
  refine ⟨rfl, ?_, ?_⟩
  · cases hp : parseJson s <;> simp [load_config, hp]
  · intro cfg hp
    simp [load_config, hp]

theorem load_config_spec_witness :
    load_config parse₀ none = .ok ⟨none, none⟩ ∧
    (load_config parse₀ (some "x") = .error ConfigError.ConfigCorrupt ↔
      parse₀ "x" = none) ∧
    (∀ cfg, parse₀ "x" = some cfg → load_config parse₀ (some "x") = .ok cfg) :=
  load_config_spec parse₀ "x"

/-- C2: with both identifiers populated, provisioning performs zero creation
calls and exactly one retrieve call (the assistant existence check), leaves
the config unchanged, and two consecutive runs still perform zero creation
calls. -/
theorem provisioning_idempotent (p : Provider) (entries : List Entry) (cfg : Config)
    (hvs : falsyOpt cfg.vector_store_id = false) (ha : falsyOpt cfg.assistant_id = false) :
    initialize_assistant_and_vector_store p entries cfg =
      .ok ([Event.retrieveAssistant (cfg.assistant_id.getD "")],
        cfg.assistant_id.getD "", cfg.vector_store_id.getD "", cfg) ∧
    createCalls [Event.retrieveAssistant (cfg.assistant_id.getD "")] = 0 ∧
    retrieveCalls [Event.retrieveAssistant (cfg.assistant_id.getD "")] = 1 ∧
    createCalls ([Event.retrieveAssistant (cfg.assistant_id.getD "")] ++
      [Event.retrieveAssistant (cfg.assistant_id.getD "")]) = 0 := by
  refine ⟨?_, rfl, rfl, rfl⟩
  simp [initialize_assistant_and_vector_store, initVectorStore, initAssistant, hvs, ha]

theorem provisioning_idempotent_witness :
    initialize_assistant_and_vector_store p₀ [] cfg₀ =
      .ok ([Event.retrieveAssistant (cfg₀.assistant_id.getD "")],
        cfg₀.assistant_id.getD "", cfg₀.vector_store_id.getD "", cfg₀) ∧
    createCalls [Event.retrieveAssistant (cfg₀.assistant_id.getD "")] = 0 ∧
    retrieveCalls [Event.retrieveAssistant (cfg₀.assistant_id.getD "")] = 1 ∧
    createCalls ([Event.retrieveAssistant (cfg₀.assistant_id.getD "")] ++
      [Event.retrieveAssistant (cfg₀.assistant_id.getD "")]) = 0 :=
  provisioning_idempotent p₀ [] cfg₀ (by decide) (by decide)

/-- C8: when nothing in the folder has a supported extension (an empty
folder included), the indexer still issues the vector-store creation call
with an empty handle list and returns the resulting identifier. -/
theorem empty_index_still_creates (p : Provider) (entries : List Entry)
    (h : ∀ e ∈ entries, isSupported e.name = false) :
    upload_files_and_create_vector_store p entries =
      .ok (entries.map (fun e => Event.skipLog e.name) ++ [Event.createVectorStore []],
        p.createVS []) := by
  simp [upload_files_and_create_vector_store, uploadFiles_none_supported p entries h]

/-- An upload event appears among the per-entry branch events exactly for a
folder entry of that name whose suffix is supported. -/
theorem mem_map_stepEv_upload (entries : List Entry) (n : String) :
    Event.uploadFile n ∈ entries.map stepEv ↔
      ∃ e ∈ entries, e.name = n ∧ isSupported e.name = true := by
  simp only [List.mem_map]
  constructor
  · rintro ⟨e, he, hstep⟩
    refine ⟨e, he, ?_⟩
    unfold stepEv at hstep
    by_cases hs : isSupported e.name
    · simp only [hs, if_true, Event.uploadFile.injEq] at hstep
      exact ⟨hstep, hs⟩
    · simp [hs] at hstep
  · rintro ⟨e, he, rfl, hs⟩
    exact ⟨e, he, by simp [stepEv, hs]⟩

/-- A skip-log event appears among the per-entry branch events exactly for a
folder entry of that name whose suffix is unsupported. -/
theorem mem_map_stepEv_skip (entries : List Entry) (n : String) :
    Event.skipLog n ∈ entries.map stepEv ↔
      ∃ e ∈ entries, e.name = n ∧ isSupported e.name = false := by
  simp only [List.mem_map]
  constructor
  · rintro ⟨e, he, hstep⟩
    refine ⟨e, he, ?_⟩
    unfold stepEv at hstep
    by_cases hs : isSupported e.name
    · simp [hs] at hstep
    · have hs' : isSupported e.name = false := by simpa using hs
      simp [stepEv, hs'] at hstep
      exact ⟨hstep, hs'⟩
  · rintro ⟨e, he, rfl, hs⟩
    exact ⟨e, he, by simp [stepEv, hs]⟩

/-- C1: in an indexing pass over the folder in which every attempted upload
succeeds, a path gets an upload call (and its handle recorded in the ids
passed to vector-store creation) if and only if its lowercased extension is
in the supported set, and it gets a skip-log line (and no upload call) if
and only if it is not. -/
theorem extension_filter_upload_iff (p : Provider) (entries : List Entry)
    (hok : ∀ e ∈ entries, isSupported e.name = true → (p.uploadResult e).isOk = true) :
    ∃ ids : List String,
      ids = entries.filterMap
        (fun e => if isSupported e.name then okValue (p.uploadResult e) else none) ∧
      upload_files_and_create_vector_store p entries =
        .ok (entries.map stepEv ++ [Event.createVectorStore ids], p.createVS ids) ∧
      (∀ e ∈ entries,
        (Event.uploadFile e.name ∈ entries.map stepEv ++ [Event.createVectorStore ids] ↔
          isSupported e.name = true)) ∧
      (∀ e ∈ entries,
        (Event.skipLog e.name ∈ entries.map stepEv ++ [Event.createVectorStore ids] ↔
          isSupported e.name = false)) ∧
      (∀ e ∈ entries, isSupported e.name = true →
        ∀ fid, p.uploadResult e = .ok fid → fid ∈ ids) := by
  refine ⟨_, rfl, ?_, ?_, ?_, ?_⟩
  · simp [upload_files_and_create_vector_store, uploadFiles_ok p entries hok]
  · intro e he
    simp only [List.mem_append, List.mem_singleton, mem_map_stepEv_upload]
    constructor
    · rintro (⟨e', _, hn, hs⟩ | h)
      · rw [← hn]; exact hs
      · exact absurd h (by simp)
    · intro hs
      exact Or.inl ⟨e, he, rfl, hs⟩
  · intro e he
    simp only [List.mem_append, List.mem_singleton, mem_map_stepEv_skip]
    constructor
    · rintro (⟨e', _, hn, hs⟩ | h)
      · rw [← hn]; exact hs
      · exact absurd h (by simp)
    · intro hs
      exact Or.inl ⟨e, he, rfl, hs⟩
  · intro e he hs fid hf
    simp only [List.mem_filterMap]
    exact ⟨e, he, by simp [hs, okValue, hf]⟩

theorem extension_filter_upload_iff_witness :
    ∃ ids : List String,
      ids = [⟨"a.pdf", false⟩, ⟨"b.xyz", false⟩, ⟨"c.md", false⟩].filterMap
        (fun e => if isSupported e.name then okValue (p₀.uploadResult e) else none) ∧
      upload_files_and_create_vector_store p₀ [⟨"a.pdf", false⟩, ⟨"b.xyz", false⟩, ⟨"c.md", false⟩] =
        .ok ([⟨"a.pdf", false⟩, ⟨"b.xyz", false⟩, ⟨"c.md", false⟩].map stepEv ++
          [Event.createVectorStore ids], p₀.createVS ids) ∧
      (∀ e ∈ [Entry.mk "a.pdf" false, Entry.mk "b.xyz" false, Entry.mk "c.md" false],
        (Event.uploadFile e.name ∈
          [Entry.mk "a.pdf" false, Entry.mk "b.xyz" false, Entry.mk "c.md" false].map stepEv ++
            [Event.createVectorStore ids] ↔ isSupported e.name = true)) ∧
      (∀ e ∈ [Entry.mk "a.pdf" false, Entry.mk "b.xyz" false, Entry.mk "c.md" false],
        (Event.skipLog e.name ∈
          [Entry.mk "a.pdf" false, Entry.mk "b.xyz" false, Entry.mk "c.md" false].map stepEv ++
            [Event.createVectorStore ids] ↔ isSupported e.name = false)) ∧
      (∀ e ∈ [Entry.mk "a.pdf" false, Entry.mk "b.xyz" false, Entry.mk "c.md" false],
        isSupported e.name = true → ∀ fid, p₀.uploadResult e = .ok fid → fid ∈ ids) :=
  extension_filter_upload_iff p₀ [⟨"a.pdf", false⟩, ⟨"b.xyz", false⟩, ⟨"c.md", false⟩]
    (by decide)

theorem empty_index_still_creates_witness :
    upload_files_and_create_vector_store p₀ [] =
      .ok ([Event.createVectorStore []], p₀.createVS []) ∧
    upload_files_and_create_vector_store p₀ [⟨"b.xyz", false⟩] =
      .ok ([Event.skipLog "b.xyz", Event.createVectorStore []], p₀.createVS []) :=
  ⟨empty_index_still_creates p₀ [] (by decide),
   empty_index_still_creates p₀ [⟨"b.xyz", false⟩] (by decide)⟩

/-- A failing upload ends the loop at once: the pass's trace is the events
of the entries before the failing one, then the failing upload call. -/
theorem uploadFiles_fail (p : Provider) (e : Entry) (post : List Entry) (msg : String)
    (hs : isSupported e.name = true) (hf : p.uploadResult e = .error msg) :
    ∀ pre : List Entry,
      (∀ e' ∈ pre, isSupported e'.name = true → (p.uploadResult e').isOk = true) →
      uploadFiles p (pre ++ e :: post) =
        .error (pre.map stepEv ++ [Event.uploadFile e.name], msg) := by
  intro pre
  induction pre with
  | nil =>
    intro _
    simp [uploadFiles, hs, hf]
  | cons e' pre ih =>
    intro hok
    have hrest := ih (fun x hx => hok x (List.mem_cons_of_mem _ hx))
    by_cases hs' : isSupported e'.name
    · have hOk : (p.uploadResult e').isOk = true := hok e' (List.mem_cons_self _ _) hs'
      cases hres : p.uploadResult e' with
      | error m => rw [hres] at hOk; simp [Except.isOk, Except.toBool] at hOk
      | ok fid => simp [uploadFiles, hs', hres, hrest, stepEv]
    · simp [uploadFiles, hs', hrest, stepEv]

/-- C6: if one upload fails mid-pass, the whole provisioning pass aborts
with that error: the trace holds the calls made so far — in particular the
uploads of the earlier supported entries, which are not rolled back — and
contains no vector-store creation call and no config write. -/
theorem upload_failure_aborts_pass (p : Provider) (cfg : Config)
    (pre post : List Entry) (e : Entry) (msg : String)
    (hcfg : falsyOpt cfg.vector_store_id = true)
    (hok : ∀ e' ∈ pre, isSupported e'.name = true → (p.uploadResult e').isOk = true)
    (hs : isSupported e.name = true) (hf : p.uploadResult e = .error msg) :
    initialize_assistant_and_vector_store p (pre ++ e :: post) cfg =
      .error (pre.map stepEv ++ [Event.uploadFile e.name], msg) ∧
    (∀ ids, Event.createVectorStore ids ∉ pre.map stepEv ++ [Event.uploadFile e.name]) ∧
    (∀ c, Event.saveConfig c ∉ pre.map stepEv ++ [Event.uploadFile e.name]) ∧
    (∀ e' ∈ pre, isSupported e'.name = true →
      Event.uploadFile e'.name ∈ pre.map stepEv ++ [Event.uploadFile e.name]) := by
  have hloop := uploadFiles_fail p e post msg hs hf pre hok
  refine ⟨?_, ?_, ?_, ?_⟩
  · simp [initialize_assistant_and_vector_store, initVectorStore, hcfg,
      upload_files_and_create_vector_store, hloop]
  · intro ids
    simp only [List.mem_append, List.mem_singleton, List.mem_map]
    rintro (⟨e', _, hstep⟩ | h)
    · rcases stepEv_shape e' with ⟨n, hn⟩ | ⟨n, hn⟩ <;> rw [hn] at hstep <;> simp at hstep
    · simp at h
  · intro c
    simp only [List.mem_append, List.mem_singleton, List.mem_map]
    rintro (⟨e', _, hstep⟩ | h)
    · rcases stepEv_shape e' with ⟨n, hn⟩ | ⟨n, hn⟩ <;> rw [hn] at hstep <;> simp at hstep
    · simp at h
  · intro e' he' hs'
    exact List.mem_append_left _ (List.mem_map.mpr ⟨e', he', by simp [stepEv, hs']⟩)

theorem upload_failure_aborts_pass_witness :
    initialize_assistant_and_vector_store p₀
        ([⟨"a.pdf", false⟩, ⟨"b.xyz", false⟩] ++ ⟨"fail.pdf", false⟩ :: [⟨"c.md", false⟩])
        ⟨none, none⟩ =
      .error ([Entry.mk "a.pdf" false, Entry.mk "b.xyz" false].map stepEv ++
        [Event.uploadFile "fail.pdf"], "boom") ∧
    (∀ ids, Event.createVectorStore ids ∉
      [Entry.mk "a.pdf" false, Entry.mk "b.xyz" false].map stepEv ++
        [Event.uploadFile "fail.pdf"]) ∧
    (∀ c, Event.saveConfig c ∉
      [Entry.mk "a.pdf" false, Entry.mk "b.xyz" false].map stepEv ++
        [Event.uploadFile "fail.pdf"]) ∧
    (∀ e' ∈ [Entry.mk "a.pdf" false, Entry.mk "b.xyz" false], isSupported e'.name = true →
      Event.uploadFile e'.name ∈
        [Entry.mk "a.pdf" false, Entry.mk "b.xyz" false].map stepEv ++
          [Event.uploadFile "fail.pdf"]) :=
  upload_failure_aborts_pass p₀ ⟨none, none⟩
    [⟨"a.pdf", false⟩, ⟨"b.xyz", false⟩] [⟨"c.md", false⟩] ⟨"fail.pdf", false⟩ "boom"
    rfl (by decide) (by decide) rfl

/-- One step of the loop begins with the event the entry's name selects:
an upload attempt for a supported suffix, a skip log otherwise — whether or
not the attempt then succeeds. -/
theorem uploadFiles_head (p : Provider) (e : Entry) (rest : List Entry) :
    (traceOf (uploadFiles p (e :: rest))).head? = some (stepEv e) := by
  by_cases hs : isSupported e.name
  · cases hres : p.uploadResult e with
    | error msg => simp [uploadFiles, hs, hres, traceOf, stepEv]
    | ok fid =>
      cases hrec : uploadFiles p rest with
      | error em => obtain ⟨tr, m⟩ := em; simp [uploadFiles, hs, hres, hrec, traceOf, stepEv]
      | ok ti => obtain ⟨tr, ids⟩ := ti; simp [uploadFiles, hs, hres, hrec, traceOf, stepEv]
  · have hs' : isSupported e.name = false := by simpa using hs
    cases hrec : uploadFiles p rest with
    | error em => obtain ⟨tr, m⟩ := em; simp [uploadFiles, hs', hrec, traceOf, stepEv]
    | ok ti => obtain ⟨tr, ids⟩ := ti; simp [uploadFiles, hs', hrec, traceOf, stepEv]

/-- C10: the indexer's selection predicate reads only the entry's lowercased
name suffix, never whether the entry is a regular file: any directory entry
with a supported suffix is selected for opening and upload, and the selected
branch is the same for a directory and a file of the same name. -/
theorem selection_ignores_entry_kind (p : Provider) (e : Entry) (rest : List Entry) :
    (isSupported e.name = true →
      (traceOf (uploadFiles p (e :: rest))).head? = some (Event.uploadFile e.name)) ∧
    (isSupported e.name = false →
      (traceOf (uploadFiles p (e :: rest))).head? = some (Event.skipLog e.name)) ∧
    (∀ b : Bool,
      (traceOf (uploadFiles p (⟨e.name, b⟩ :: rest))).head? =
      (traceOf (uploadFiles p (e :: rest))).head?) := by
  refine ⟨?_, ?_, ?_⟩
  · intro hs
    rw [uploadFiles_head]
    simp [stepEv, hs]
  · intro hs
    rw [uploadFiles_head]
    simp [stepEv, hs]
  · intro b
    rw [uploadFiles_head, uploadFiles_head]
    rfl

theorem selection_ignores_entry_kind_witness :
    (traceOf (uploadFiles p₀ (⟨"sub.pdf", true⟩ :: []))).head? =
      some (Event.uploadFile "sub.pdf") ∧
    (traceOf (uploadFiles p₀ ((⟨"sub.pdf", false⟩ : Entry) :: []))).head? =
      (traceOf (uploadFiles p₀ (⟨"sub.pdf", true⟩ :: []))).head? :=
  ⟨(selection_ignores_entry_kind p₀ ⟨"sub.pdf", true⟩ []).1 (by decide),
   (selection_ignores_entry_kind p₀ ⟨"sub.pdf", true⟩ []).2.2 false⟩

/-- If no poll ever reports `"completed"`, the loop is still running after
any amount of fuel: it never exits. -/
theorem pollLoop_stuck (status : Nat → String) (h : ∀ j, status j ≠ "completed") :
    ∀ fuel k, pollLoop status fuel k = none := by
  intro fuel
  induction fuel with
  | zero => intro k; rfl
  | succ f ih =>
    intro k
    simp [pollLoop, h k, ih (k + 1)]

/-- If the first `"completed"` status, counting from poll `k`, comes at poll
`k + m`, the loop (given enough fuel) exits exactly there, its trace one
retrieve per poll with a 1-second sleep after each non-completed one. -/
theorem pollLoop_first (status : Nat → String) :
    ∀ m k fuel, (∀ j, j < m → status (k + j) ≠ "completed") →
      status (k + m) = "completed" → m < fuel →
      pollLoop status fuel k = some (pollTraceFrom k m, k + m) := by
  intro m
  induction m with
  | zero =>
    intro k fuel _ hm hfuel
    obtain ⟨f, rfl⟩ : ∃ f, fuel = f + 1 := ⟨fuel - 1, by omega⟩
    simp only [Nat.add_zero] at hm
    simp [pollLoop, pollTraceFrom, hm]
  | succ m ih =>
    intro k fuel hlt hm hfuel
    obtain ⟨f, rfl⟩ : ∃ f, fuel = f + 1 := ⟨fuel - 1, by omega⟩
    have h0 : status k ≠ "completed" := by
      have := hlt 0 (Nat.succ_pos m)
      simpa using this
    have hrec : pollLoop status f (k + 1) = some (pollTraceFrom (k + 1) m, (k + 1) + m) := by
      refine ih (k + 1) f (fun j hj => ?_) ?_ (by omega)
      · have := hlt (j + 1) (Nat.succ_lt_succ hj)
        have harith : k + (j + 1) = k + 1 + j := by omega
        rwa [harith] at this
      · have harith : k + (m + 1) = k + 1 + m := by omega
        rwa [harith] at hm
    have harith : (k + 1) + m = k + (m + 1) := by omega
    rw [harith] at hrec
    simp [pollLoop, h0, hrec, pollTraceFrom]

/-- C3: the run-polling loop exits on the first poll whose status is
`"completed"` — with a retrieve per poll and a fixed 1-second sleep after
every non-completed one — and, when no poll ever reports `"completed"`, it
never exits, however long it runs: no timeout, no backoff, no cancellation.
-/
theorem poll_until_completed (status : Nat → String) (n : Nat)
    (hbefore : ∀ j, j < n → status j ≠ "completed") (hn : status n = "completed") :
    (∀ fuel, n < fuel → pollLoop status fuel 0 = some (pollTraceFrom 0 n, n)) ∧
    (∀ stuck : Nat → String, (∀ j, stuck j ≠ "completed") →
      ∀ fuel k, pollLoop stuck fuel k = none) := by
  constructor
  · intro fuel hfuel
    have := pollLoop_first status n 0 fuel
      (fun j hj => by simpa using hbefore j hj) (by simpa using hn) hfuel
    simpa using this
  · exact fun stuck hstuck => pollLoop_stuck stuck hstuck

theorem poll_until_completed_witness :
    (∀ fuel, 2 < fuel → pollLoop status₀ fuel 0 = some (pollTraceFrom 0 2, 2)) ∧
    (∀ stuck : Nat → String, (∀ j, stuck j ≠ "completed") →
      ∀ fuel k, pollLoop stuck fuel k = none) :=
  poll_until_completed status₀ 2 (by decide) (by decide)

/-- Folding session steps from any starting history appends the interleaved
turns of the submitted (input, response) pairs. -/
theorem runSession_from (pairs : List (String × String)) :
    ∀ hist : List Turn,
      pairs.foldl (fun h q => sessionStep h q.1 q.2) hist = hist ++ interleaved pairs := by
  induction pairs with
  | nil => intro hist; simp [interleaved]
  | cons q rest ih =>
    intro hist
    obtain ⟨u, r⟩ := q
    rw [List.foldl_cons, ih]
    simp [sessionStep, interleaved]

/-- The interleaving holds one user turn per pair. -/
theorem interleaved_user_count (pairs : List (String × String)) :
    ((interleaved pairs).filter (fun t => t.role == "user")).length = pairs.length := by
  induction pairs with
  | nil => rfl
  | cons q rest ih => obtain ⟨u, r⟩ := q; simp [interleaved, ih]

/-- The interleaving holds one assistant turn per pair. -/
theorem interleaved_assistant_count (pairs : List (String × String)) :
    ((interleaved pairs).filter (fun t => t.role == "assistant")).length = pairs.length := by
  induction pairs with
  | nil => rfl
  | cons q rest ih => obtain ⟨u, r⟩ := q; simp [interleaved, ih]

/-- C7: after N submitted messages whose runs all completed, the chat
history is exactly the N user turns each immediately followed by its
assistant turn, in submission order; it holds N user and N assistant turns;
a step only appends to the existing history (nothing is removed or
reordered); and the input handler realizes the step whenever extraction
succeeds. -/
theorem chat_history_append_only (pairs : List (String × String)) :
    runSession pairs = interleaved pairs ∧
    ((runSession pairs).filter (fun t => t.role == "user")).length = pairs.length ∧
    ((runSession pairs).filter (fun t => t.role == "assistant")).length = pairs.length ∧
    (∀ (hist : List Turn) (u r : String), ∃ tail, sessionStep hist u r = hist ++ tail) ∧
    (∀ (hist : List Turn) (u : String) (msgs : List RemoteMessage) (r : String),
      extractResponse msgs = some r →
      handleInput hist u msgs = (sessionStep hist u r, none)) := by
  have hrun : runSession pairs = interleaved pairs := by
    simpa using runSession_from pairs []
  refine ⟨hrun, ?_, ?_, ?_, ?_⟩
  · rw [hrun]; exact interleaved_user_count pairs
  · rw [hrun]; exact interleaved_assistant_count pairs
  · intro hist u r
    exact ⟨[⟨"user", u⟩, ⟨"assistant", r⟩], by simp [sessionStep]⟩
  · intro hist u msgs r hr
    simp [handleInput, hr, sessionStep]

theorem chat_history_append_only_witness :
    runSession [("q1", "a1"), ("q2", "a2")] = interleaved [("q1", "a1"), ("q2", "a2")] ∧
    ((runSession [("q1", "a1"), ("q2", "a2")]).filter (fun t => t.role == "user")).length = 2 ∧
    ((runSession [("q1", "a1"), ("q2", "a2")]).filter
      (fun t => t.role == "assistant")).length = 2 ∧
    (∀ (hist : List Turn) (u r : String), ∃ tail, sessionStep hist u r = hist ++ tail) ∧
    (∀ (hist : List Turn) (u : String) (msgs : List RemoteMessage) (r : String),
      extractResponse msgs = some r →
      handleInput hist u msgs = (sessionStep hist u r, none)) :=
  chat_history_append_only [("q1", "a1"), ("q2", "a2")]

/-- C9: the response is taken unconditionally from the first content item of
the first listed message — the message's role is never consulted — and when
the listing is empty, or its first message's content is empty, the fetch
raises instead of appending an assistant turn. -/
theorem response_extraction_unchecked (hist : List Turn) (u : String) :
    handleInput hist u [] = (hist ++ [⟨"user", u⟩], some "IndexError") ∧
    (∀ (m : RemoteMessage) (rest : List RemoteMessage), m.content = [] →
      handleInput hist u (m :: rest) = (hist ++ [⟨"user", u⟩], some "IndexError")) ∧
    (∀ (m : RemoteMessage) (rest : List RemoteMessage) (c : String) (cs : List String),
      m.content = c :: cs →
      handleInput hist u (m :: rest) =
        (hist ++ [⟨"user", u⟩] ++ [⟨"assistant", c⟩], none)) ∧
    (∀ (m : RemoteMessage) (rest : List RemoteMessage) (otherRole : String),
      extractResponse ({ role := otherRole, content := m.content } :: rest) =
      extractResponse (m :: rest)) := by
  refine ⟨rfl, ?_, ?_, ?_⟩
  · intro m rest hc
    simp [handleInput, extractResponse, hc]
  · intro m rest c cs hc
    simp [handleInput, extractResponse, hc]
  · intro m rest otherRole
    simp [extractResponse]

theorem response_extraction_unchecked_witness :
    handleInput [] "hi" [] = ([⟨"user", "hi"⟩], some "IndexError") ∧
    (∀ (m : RemoteMessage) (rest : List RemoteMessage), m.content = [] →
      handleInput [] "hi" (m :: rest) = ([⟨"user", "hi"⟩], some "IndexError")) ∧
    (∀ (m : RemoteMessage) (rest : List RemoteMessage) (c : String) (cs : List String),
      m.content = c :: cs →
      handleInput [] "hi" (m :: rest) =
        ([⟨"user", "hi"⟩] ++ [⟨"assistant", c⟩], none)) ∧
    (∀ (m : RemoteMessage) (rest : List RemoteMessage) (otherRole : String),
      extractResponse ({ role := otherRole, content := m.content } :: rest) =
      extractResponse (m :: rest)) :=
  response_extraction_unchecked [] "hi"

/-- C4: the sidebar batch upload carries exactly the selected files whose
filename is absent from the current vector-store listing; a selected file
whose filename already appears in the listing is never re-uploaded, and
every absent one is. -/
theorem upload_dedup_by_filename (retrieveFilename : String → String)
    (files : List VSFile) (uploaded : List UploadedFile) :
    batchFiles (uploadHandler uploaded (existing_filenames retrieveFilename files)) =
      (new_files uploaded (existing_filenames retrieveFilename files)).map
        (fun f => (f.name, f.data)) ∧
    (∀ f ∈ uploaded,
      (existing_filenames retrieveFilename files).contains f.name = true →
      ∀ d, (f.name, d) ∉
        batchFiles (uploadHandler uploaded (existing_filenames retrieveFilename files))) ∧
    (∀ f ∈ uploaded,
      (existing_filenames retrieveFilename files).contains f.name = false →
      (f.name, f.data) ∈
        batchFiles (uploadHandler uploaded (existing_filenames retrieveFilename files))) := by
  have hmain : batchFiles (uploadHandler uploaded (existing_filenames retrieveFilename files)) =
      (new_files uploaded (existing_filenames retrieveFilename files)).map
        (fun f => (f.name, f.data)) := by
    unfold uploadHandler
    by_cases hu : uploaded.isEmpty
    · have : uploaded = [] := List.isEmpty_iff.mp hu
      subst this
      simp [batchFiles, new_files]
    · simp only [hu, if_false]
      by_cases hn : (new_files uploaded (existing_filenames retrieveFilename files)).isEmpty
      · have hnil : new_files uploaded (existing_filenames retrieveFilename files) = [] :=
          List.isEmpty_iff.mp hn
        simp [hn, hnil, batchFiles]
      · simp [hn, batchFiles]
  refine ⟨hmain, ?_, ?_⟩
  · intro f hf hmem d hd
    rw [hmain] at hd
    rcases List.mem_map.mp hd with ⟨g, hg, hpair⟩
    rcases List.mem_filter.mp hg with ⟨_, hgkeep⟩
    have hname : g.name = f.name := congrArg Prod.fst hpair
    rw [hname] at hgkeep
    simp at hmem hgkeep
    exact hgkeep hmem
  · intro f hf hmem
    rw [hmain]
    refine List.mem_map.mpr ⟨f, ?_, rfl⟩
    refine List.mem_filter.mpr ⟨hf, ?_⟩
    simp only [Bool.not_eq_true', hmem]

theorem upload_dedup_by_filename_witness :
    batchFiles (uploadHandler [⟨"a.pdf", [1]⟩, ⟨"b.txt", [2]⟩]
        (existing_filenames id [⟨"a.pdf"⟩])) =
      (new_files [⟨"a.pdf", [1]⟩, ⟨"b.txt", [2]⟩]
        (existing_filenames id [⟨"a.pdf"⟩])).map (fun f => (f.name, f.data)) ∧
    (∀ f ∈ [UploadedFile.mk "a.pdf" [1], UploadedFile.mk "b.txt" [2]],
      (existing_filenames id [⟨"a.pdf"⟩]).contains f.name = true →
      ∀ d, (f.name, d) ∉
        batchFiles (uploadHandler [⟨"a.pdf", [1]⟩, ⟨"b.txt", [2]⟩]
          (existing_filenames id [⟨"a.pdf"⟩]))) ∧
    (∀ f ∈ [UploadedFile.mk "a.pdf" [1], UploadedFile.mk "b.txt" [2]],
      (existing_filenames id [⟨"a.pdf"⟩]).contains f.name = false →
      (f.name, f.data) ∈
        batchFiles (uploadHandler [⟨"a.pdf", [1]⟩, ⟨"b.txt", [2]⟩]
          (existing_filenames id [⟨"a.pdf"⟩]))) :=
  upload_dedup_by_filename id [⟨"a.pdf"⟩] [⟨"a.pdf", [1]⟩, ⟨"b.txt", [2]⟩]

end CompanyDocs
